import Mathlib

/-!
# Verification of the kanji composition engine (`src/kanjiComposition.js`)

Shallow embedding of the composition engine, the glyph loader/cache and the
editor state store.  Conventions of the embedding:

* JavaScript numbers are modelled by exact rationals (`ℚ`); `Math.floor` is
  `Int.floor`.  The claims settled here are about the exact arithmetic the
  source performs, not about binary floating-point rounding error.
* A flattened stroke record (the output of the external KAGE
  stroke-decomposition collaborator) is a `List ℚ`.  `KanjiComposer.flatten`
  delegates to that external collaborator, so `compose` is embedded as a
  function of the two already-flattened stroke lists (the spec's Step 1 is the
  abstraction boundary); likewise `stringify` (plain text formatting of the
  resulting records) is left outside the embedding and `compose` returns the
  recombined stroke list itself.
* The loader's `fetch`/`res.json()` pipeline is modelled by an oracle
  `String → FetchResult`; the recursive dependency loads awaited through
  `Promise.all` are modelled sequentially (the claims settled on the loader do
  not depend on the interleaving of sibling loads, which is treated separately
  in the two-caller model `loadTwiceConcurrently`).
-/

namespace KanjiComposite

/-- JavaScript `Math.floor`, kept inside `ℚ`.  Stated executably through the
numerator/denominator (euclidean) division; `jfloor_eq_floor` identifies it
with the mathematical floor. -/
def jfloor (q : ℚ) : ℚ := ((q.num / (q.den : ℤ) : ℤ) : ℚ)

theorem jfloor_eq_floor (q : ℚ) : jfloor q = (⌊q⌋ : ℤ) := by
  rw [jfloor, Rat.floor_def]

/-- The eight layout mode identifiers dispatched in `KanjiComposer.compose`. -/
inductive Layout
  | ADD_RIGHT | ADD_LEFT | ADD_TOP | ADD_BOTTOM
  | NYOU | ENCLOSE | ENCLOSE_GATE | TRIANGLE
  deriving DecidableEq

/-- A fractional sub-region of a part's 200×200 local space. -/
structure Rect where
  x : ℚ
  y : ℚ
  w : ℚ
  h : ℚ
  deriving DecidableEq

/-- A placement box in the new logical coordinate space. -/
structure Box where
  x : ℚ
  y : ℚ
  w : ℚ
  h : ℚ
  deriving DecidableEq

/-- The `for (i = 3; i < len; i++)` loop of `transformStrokes`: positions past
the first three are mapped alternately by the x-map and the y-map (parity of
`i - 3`).  The flag is `false` when the next position is an x coordinate. -/
def mapAlt (fx fy : ℚ → ℚ) : Bool → List ℚ → List ℚ
  | _, [] => []
  | false, v :: rest => fx v :: mapAlt fx fy true rest
  | true, v :: rest => fy v :: mapAlt fx fy false rest

/-- The `for (i = 3; i < len; i += 2)` loop of the current-composite transform
inside `compose`: coordinates past the first three fields are mapped two at a
time.  (For a record with a lone trailing coordinate the JS loop would also
write a `NaN` one slot past the end; records produced by the stroke
decomposition always carry complete (x,y) pairs, and every theorem that
touches this transform carries that hypothesis.) -/
def mapPairs (fx fy : ℚ → ℚ) : List ℚ → List ℚ
  | x :: y :: rest => fx x :: fy y :: mapPairs fx fy rest
  | rest => rest

/-- One stroke record through `transformStrokes`: fields 0..2 (type/attribute
codes) are untouched, fields from index 3 on are coordinate-mapped. -/
def transformRecord (fx fy : ℚ → ℚ) (s : List ℚ) : List ℚ :=
  s.take 3 ++ mapAlt fx fy false (s.drop 3)

/-- One stroke record through the inline current-composite loop of `compose`. -/
def transCurrentRecord (fx fy : ℚ → ℚ) (s : List ℚ) : List ℚ :=
  s.take 3 ++ mapPairs fx fy (s.drop 3)

/-- `KanjiComposer.transformStrokes`: maps a stroke list into `targetBox`,
taking the source region from `srcRect` (the whole 200×200 square when the
argument is absent). -/
def transformStrokes (strokes : List (List ℚ)) (targetBox : Box)
    (srcRect : Option Rect) : List (List ℚ) :=
  let sX : ℚ := (match srcRect with | some r => r.x | none => 0) * 200
  let sY : ℚ := (match srcRect with | some r => r.y | none => 0) * 200
  let sW : ℚ := (match srcRect with | some r => r.w | none => 1) * 200
  let sH : ℚ := (match srcRect with | some r => r.h | none => 1) * 200
  let scaleX := targetBox.w / sW
  let scaleY := targetBox.h / sH
  let offsetX := targetBox.x - sX * scaleX
  let offsetY := targetBox.y - sY * scaleY
  strokes.map (fun s =>
    transformRecord (fun v => jfloor (v * scaleX + offsetX))
      (fun v => jfloor (v * scaleY + offsetY)) s)

/-- The per-layout branch of `compose`: the new logical size, the placement
box of the existing composite and the placement box of the part, in this
order.  `TRIANGLE` is dispatched by `compose` before these boxes are
consulted (the source leaves them at their initial empty values on that
branch), so its row here keeps the pre-branch defaults. -/
def layoutGeom : Layout → ℚ → ℚ × Box × Box
  | .ADD_RIGHT, cs =>
      (cs + 300, ⟨0, 0, cs, cs + 300⟩, ⟨cs, 0, 300, cs + 300⟩)
  | .ADD_LEFT, cs =>
      (cs + 120, ⟨120, 0, cs, cs + 120⟩, ⟨0, 0, 120, cs + 120⟩)
  | .ADD_TOP, cs =>
      (cs + 150, ⟨0, 150, cs + 150, cs⟩, ⟨0, 0, cs + 150, 150⟩)
  | .ADD_BOTTOM, cs =>
      (cs + 150, ⟨0, 0, cs + 150, cs⟩, ⟨0, cs, cs + 150, 150⟩)
  | .NYOU, cs =>
      let ns := cs / (7/10)
      (ns, ⟨ns - cs, ns * (1/10), cs, cs⟩, ⟨0, 0, ns, ns⟩)
  | .ENCLOSE, cs =>
      let ns := cs + 70
      let bs := ns * (7/5) - 70
      (ns, ⟨(ns - cs) / 2, (ns - cs) / 2, cs, cs⟩,
        ⟨(ns - bs) / 2, (ns - bs) / 2, bs, bs⟩)
  | .ENCLOSE_GATE, cs =>
      let ns := cs / (3/4)
      let cw := ns * (1/2)
      (ns, ⟨(ns - cw) / 2, ns * (9/20), cw, cw⟩, ⟨0, 0, ns, ns⟩)
  | .TRIANGLE, cs => (cs, ⟨0, 0, 0, 0⟩, ⟨0, 0, 0, 0⟩)

/-- Result of `KanjiComposer.compose`; `data` holds the recombined stroke
records before the external text re-serialization. -/
structure ComposeResult where
  data : List (List ℚ)
  logicalSize : ℚ
  area : ℚ
  deriving DecidableEq

/-- `KanjiComposer.compose` on already-flattened stroke lists. -/
def compose (strokesCurrent strokesPart : List (List ℚ)) (layoutMode : Layout)
    (currentLogicalSize currentArea areaFactor : ℚ) (partRect : Option Rect) :
    ComposeResult :=
  let srcPartRect : Rect := match partRect with
    | some r => r
    | none => ⟨0, 0, 1, 1⟩
  match layoutMode with
  | .TRIANGLE =>
      let nextLogicalSize := currentLogicalSize * 2
      let nextArea := (40000 * 3) * areaFactor
      let half := nextLogicalSize / 2
      let s1 := transformStrokes strokesPart ⟨half / 2, 0, half, half⟩ (some srcPartRect)
      let s2 := transformStrokes strokesPart ⟨0, half, half, half⟩ (some srcPartRect)
      let s3 := transformStrokes strokesPart ⟨half, half, half, half⟩ (some srcPartRect)
      ⟨s1 ++ s2 ++ s3, nextLogicalSize, nextArea⟩
  | _ =>
      let g := layoutGeom layoutMode currentLogicalSize
      let nextLogicalSize := g.1
      let boxCurrent := g.2.1
      let boxPart := g.2.2
      let baseNextArea := currentArea * (nextLogicalSize / currentLogicalSize)
      let nextArea := currentArea + (baseNextArea - currentArea) * areaFactor
      let transCurrent := strokesCurrent.map (fun s =>
        transCurrentRecord
          (fun v => jfloor (v * (boxCurrent.w / currentLogicalSize) + boxCurrent.x))
          (fun v => jfloor (v * (boxCurrent.h / currentLogicalSize) + boxCurrent.y)) s)
      let transPart := transformStrokes strokesPart boxPart (some srcPartRect)
      ⟨transCurrent ++ transPart, jfloor nextLogicalSize, nextArea⟩

/-- A stroke record whose coordinate values come in complete (x,y) pairs from
index 3 onward (this is how the stroke decomposition emits records). -/
def pairComplete (s : List ℚ) : Prop := s.length ≤ 3 ∨ s.length % 2 = 1

instance (s : List ℚ) : Decidable (pairComplete s) := by
  unfold pairComplete; infer_instance

/-! ## GlyphLoader -/

/-- A cached value: the raw-definition text stored by `load`, or the nullish
placeholder left behind when the fetched JSON carried no text in its `data`
field (the assignment `this.cache[id] = data` happens before `data` is used). -/
inductive CVal
  | str (s : String)
  | nullish
  deriving DecidableEq

/-- Outcome of one external fetch for an identifier: the transport or the JSON
parse rejects (`fail`, caught before the cache assignment), or a JSON payload
arrives whose `data` field holds a text or nothing. -/
inductive FetchResult
  | fail
  | ok (data : Option String)

/-- Loader state: the cache (a JS object used as a dictionary, modelled
pointwise) and the number of external fetches issued so far. -/
structure LoaderSt where
  cache : String → Option CVal
  fetchCount : Nat

/-- Property assignment `this.cache[id] = v`. -/
def cacheSet (c : String → Option CVal) (k : String) (v : CVal) :
    String → Option CVal :=
  fun q => if q = k then some v else c q

/-- JS truthiness of `this.cache[id]`: only a non-empty stored text is truthy
(an absent key, the nullish placeholder and the empty string are all falsy). -/
def jsTruthy : Option CVal → Bool
  | some (.str s) => s != ""
  | _ => false

/-- `GlyphLoader.charToId`: lowercase hex of the first code point, prefixed
with `u`; `null` for the empty (falsy) string. -/
def charToId (char : String) : Option String :=
  match char.data with
  | [] => none
  | c :: _ => some ("u" ++ (Nat.toDigits 16 c.toNat).asString)

/-- `nameOrId.startsWith('u')`. -/
def startsWithU (s : String) : Bool :=
  match s.data with
  | c :: _ => c == 'u'
  | [] => false

/-- The identifier normalization at the top of `load`:
`nameOrId.startsWith('u') ? nameOrId : this.charToId(nameOrId)`. -/
def resolveId (nameOrId : String) : Option String :=
  if startsWithU nameOrId then some nameOrId else charToId nameOrId

/-- JS `String.prototype.split` with a one-character separator, on the
character list: splitting the empty text yields one empty piece, and every
occurrence of the separator opens a new piece. -/
def splitOnChar (sep : Char) : List Char → List (List Char)
  | [] => [[]]
  | c :: rest =>
    let r := splitOnChar sep rest
    if c = sep then [] :: r
    else
      match r with
      | h :: t => (c :: h) :: t
      | [] => [[c]]

/-- `data.split(sep)` for a one-character separator. -/
def splitStr (sep : Char) (data : String) : List String :=
  (splitOnChar sep data.data).map (fun l => String.mk l)

/-- The component-reference scan of `load`: split the fetched definition on
`$`, split each record on `:`, and keep column 7 of every record whose column
0 is `99` (the loop guard `refId && ...` drops an absent or empty column 7;
the cache check of that guard is re-done against the current cache in
`load` itself). -/
def refsOf (data : String) : List String :=
  (splitStr '$' data).filterMap (fun line =>
    let cols := splitStr ':' line
    if cols.headD "" = "99" then
      match cols.get? 7 with
      | some refId => if refId = "" then none else some refId
      | none => none
    else none)

/-- The fetch-and-store path of `load` (the body after the cache check):
issue the fetch, store the payload under `id`, then walk the
component-reference loop, re-checking the guard's cache truthiness and
delegating to `rec` (the recursive `load` call at the remaining depth) for
every reference still falsy.  On a fetched payload the text is stored in the
cache first, then the references are loaded; a payload without a text stores
the nullish placeholder and the subsequent `data.split` throw is caught,
returning `null` (`none`). -/
def loadFetch (oracle : String → FetchResult)
    (rec : String → LoaderSt → Option String × LoaderSt)
    (id : String) (st : LoaderSt) : Option String × LoaderSt :=
  match oracle id with
  | .fail => (none, ⟨st.cache, st.fetchCount + 1⟩)
  | .ok none => (none, ⟨cacheSet st.cache id .nullish, st.fetchCount + 1⟩)
  | .ok (some data) =>
    let st1 : LoaderSt := ⟨cacheSet st.cache id (.str data), st.fetchCount + 1⟩
    let st2 := (refsOf data).foldl
      (fun s refId =>
        if jsTruthy (s.cache refId) then s else (rec refId s).2)
      st1
    (some data, st2)

/-- `GlyphLoader.load`.  The external `fetch`/`res.json()` pair is the oracle;
`fuel` bounds the recursion depth (a model artifact: the source recursion is
bounded by the dependency graph).  The recursive dependency loads that the
source fires through `Promise.all` are modelled sequentially, re-checking the
loop guard's cache truthiness before each one; the claims settled on this
model do not depend on the interleaving of those sibling loads. -/
def load (oracle : String → FetchResult) :
    Nat → String → LoaderSt → Option String × LoaderSt
  | 0, _, st => (none, st)
  | fuel + 1, nameOrId, st =>
    match resolveId nameOrId with
    | none => (none, st)
    | some id =>
      match st.cache id with
      | some (.str s) =>
        if s = "" then loadFetch oracle (fun r s2 => load oracle fuel r s2) id st
        else (some s, st)
      | _ => loadFetch oracle (fun r s2 => load oracle fuel r s2) id st

/-- Two `load` calls for the same name, the second issued before the first's
HTTP response arrives.  Under the JS event ordering each async call runs
synchronously up to its `await fetch`, so both cache lookups happen (and
miss) before either response handler stores anything; then each response
handler runs in arrival order: it stores the payload and walks the
component-reference loop.  With the deterministic fetch oracle both fetches
return the same payload.  `fuel` bounds the dependency recursion as in
`load`. -/
def loadTwiceConcurrently (oracle : String → FetchResult) (fuel : Nat)
    (nameOrId : String) (st : LoaderSt) :
    (Option String × Option String) × LoaderSt :=
  match resolveId nameOrId with
  | none => ((none, none), st)
  | some id =>
    let bothFetch : (Option String × Option String) × LoaderSt :=
      match oracle id with
      | .fail => ((none, none), ⟨st.cache, st.fetchCount + 2⟩)
      | .ok none => ((none, none), ⟨cacheSet st.cache id .nullish, st.fetchCount + 2⟩)
      | .ok (some data) =>
        let step := fun (s : LoaderSt) (refId : String) =>
          if jsTruthy (s.cache refId) then s else (load oracle fuel refId s).2
        let st1 : LoaderSt := ⟨cacheSet st.cache id (.str data), st.fetchCount + 2⟩
        let st2 := (refsOf data).foldl step st1
        let st3 := (refsOf data).foldl step st2
        ((some data, some data), st3)
    match st.cache id with
    | some (.str s) => if s = "" then bothFetch else ((some s, some s), st)
    | _ => bothFetch

/-! ## KanjiEditorState

The history stack is a JS array mutated only through `push`/`pop` at its
tail; it is modelled as a list with the top of the stack at the head (the
standard stack reading, the same discipline as the source).  The composite
state carries exactly the three persisted fields of the interface contract
(`data`, `logicalSize`, `area`). -/

/-- One composite state snapshot. -/
structure CompositeState where
  data : String
  logicalSize : ℚ
  area : ℚ
  deriving DecidableEq

/-- `KanjiEditorState`: current state plus the undo history. -/
structure EditorState where
  history : List CompositeState
  state : CompositeState
  deriving DecidableEq

/-- `_getInitialState()` as used by the constructor. -/
def initialComposite : CompositeState := ⟨"", 200, 40000⟩

/-- `new KanjiEditorState()`. -/
def EditorState.init : EditorState := ⟨[], initialComposite⟩

/-- `reset(initialData)`: clears the history, re-seeds the canonical square. -/
def EditorState.reset (_es : EditorState) (initialData : String) : EditorState :=
  ⟨[], ⟨initialData, 200, 40000⟩⟩

/-- `update(newData, newSize, newArea)`: snapshots the current state onto the
history, then replaces the three fields. -/
def EditorState.update (es : EditorState) (newData : String)
    (newSize newArea : ℚ) : EditorState :=
  ⟨es.state :: es.history, ⟨newData, newSize, newArea⟩⟩

/-- `undo()`: pops the most recent snapshot if the history is non-empty;
returns the success flag together with the resulting state. -/
def EditorState.undo (es : EditorState) : Bool × EditorState :=
  match es.history with
  | [] => (false, es)
  | s :: rest => (true, ⟨rest, s⟩)

/-- JSON values, as produced by the host `JSON.parse`. -/
inductive Json
  | str (s : String)
  | num (q : ℚ)
  | bool (b : Bool)
  | null
  | arr (xs : List Json)
  | obj (fields : List (String × Json))

/-- JS property access `parsed.k` on a parsed JSON value: a field of an
object, `undefined` (`none`) on every other value.  (On `null` the source's
access throws, which the surrounding `try` turns into the same failure
outcome.) -/
def Json.getField : Json → String → Option Json
  | .obj fields, k => fields.lookup k
  | _, _ => none

/-- `exportJson()` up to the host text serialization: the JSON object
`JSON.stringify` renders.  The host's `JSON.parse`/`JSON.stringify` pair is
the identity on this value. -/
def exportJson (es : EditorState) : Json :=
  .obj [("data", .str es.state.data), ("logicalSize", .num es.state.logicalSize),
    ("area", .num es.state.area)]

/-- `importJson(jsonString)`, taking the host parse's outcome as input
(`none` when `JSON.parse` throws).  The three fields are validated with
`typeof`; on success the history is cleared and the current state replaced,
otherwise the editor is left untouched and `false` reported. -/
def importJson (es : EditorState) (parsedInput : Option Json) :
    Bool × EditorState :=
  match parsedInput with
  | none => (false, es)
  | some parsed =>
    match parsed.getField "data", parsed.getField "logicalSize",
        parsed.getField "area" with
    | some (.str d), some (.num size), some (.num area) =>
        (true, ⟨[], ⟨d, size, area⟩⟩)
    | _, _, _ => (false, es)

/-- The import validation, written from the spec's words: a parsed object is a
valid persisted state when its `data` field is a string and its `logicalSize`
and `area` fields are numeric; the extracted composite state comes with it. -/
def validComposite : Option Json → Option CompositeState
  | none => none
  | some parsed =>
    match parsed.getField "data", parsed.getField "logicalSize",
        parsed.getField "area" with
    | some (.str d), some (.num size), some (.num area) => some ⟨d, size, area⟩
    | _, _, _ => none

/-! ## Loader cache lemmas -/

/-- Cache evolution invariant of one loader step: keys are never removed, and
an entry holding a truthy value (a non-empty text) keeps its exact value. -/
def cachePres (c c2 : String → Option CVal) : Prop :=
  (∀ k, (c k).isSome = true → (c2 k).isSome = true) ∧
  (∀ k v, jsTruthy (c k) = true → c k = some v → c2 k = some v)

theorem cachePres_refl (c : String → Option CVal) : cachePres c c :=
  ⟨fun _ h => h, fun _ _ _ h => h⟩

theorem cachePres_trans {a b c : String → Option CVal}
    (h1 : cachePres a b) (h2 : cachePres b c) : cachePres a c := by
  refine ⟨fun k hk => h2.1 k (h1.1 k hk), fun k v ht hv => ?_⟩
  have hb : b k = some v := h1.2 k v ht hv
  exact h2.2 k v (by rw [hb, ← hv]; exact ht) hb

theorem cachePres_set (c : String → Option CVal) (k : String) (v : CVal)
    (h : jsTruthy (c k) = false) : cachePres c (cacheSet c k v) := by
  constructor
  · intro q hq
    unfold cacheSet
    by_cases hqk : q = k <;> simp [hqk, hq]
  · intro q w ht hw
    unfold cacheSet
    by_cases hqk : q = k
    · subst hqk
      rw [ht] at h
      exact absurd h (by decide)
    · simp [hqk, hw]

theorem loadFetch_cachePres (oracle : String → FetchResult)
    (rec : String → LoaderSt → Option String × LoaderSt)
    (hrec : ∀ r s, cachePres s.cache ((rec r s).2).cache)
    (id : String) (st : LoaderSt) (hmiss : jsTruthy (st.cache id) = false) :
    cachePres st.cache ((loadFetch oracle rec id st).2).cache := by
  unfold loadFetch
  split
  · exact cachePres_refl _
  · exact cachePres_set _ _ _ hmiss
  · rename_i data heqo
    refine cachePres_trans (cachePres_set st.cache id (CVal.str data) hmiss) ?_
    have hstep : ∀ (s : LoaderSt) (r : String), cachePres s.cache
        (if jsTruthy (s.cache r) = true then s else (rec r s).2).cache := by
      intro s r
      by_cases h : jsTruthy (s.cache r) = true
      · rw [if_pos h]; exact cachePres_refl _
      · rw [if_neg h]; exact hrec r s
    have hfold : ∀ (l : List String) (s : LoaderSt), cachePres s.cache
        ((l.foldl (fun s2 refId => if jsTruthy (s2.cache refId) = true then s2
          else (rec refId s2).2) s)).cache := by
      intro l
      induction l with
      | nil => exact fun s => cachePres_refl _
      | cons r rs ihl =>
        intro s
        rw [List.foldl_cons]
        exact cachePres_trans (hstep s r) (ihl _)
    exact hfold (refsOf data)
      ⟨cacheSet st.cache id (CVal.str data), st.fetchCount + 1⟩

theorem load_cachePres (oracle : String → FetchResult) :
    ∀ (fuel : Nat) (nameOrId : String) (st : LoaderSt),
      cachePres st.cache ((load oracle fuel nameOrId st).2).cache := by
  intro fuel
  induction fuel with
  | zero => exact fun _ st => cachePres_refl _
  | succ n ih =>
    intro nameOrId st
    rw [load]
    split
    · exact cachePres_refl _
    · rename_i id _
      split
      · rename_i s heq
        by_cases hs : s = ""
        · rw [if_pos hs]
          exact loadFetch_cachePres oracle _ (fun r s2 => ih r s2) id st
            (by rw [heq, hs]; rfl)
        · rw [if_neg hs]
          exact cachePres_refl _
      · rename_i hne
        refine loadFetch_cachePres oracle _ (fun r s2 => ih r s2) id st ?_
        cases hc : st.cache id with
        | none => rfl
        | some v =>
          cases v with
          | str s => exact absurd hc (by intro h2; exact hne s h2)
          | nullish => rfl

/-! ## Record-level transform lemmas -/

theorem mapAlt_length (fx fy : ℚ → ℚ) : ∀ (b : Bool) (s : List ℚ),
    (mapAlt fx fy b s).length = s.length
  | false, [] => rfl
  | true, [] => rfl
  | false, _ :: rest => by
      simp only [mapAlt, List.length_cons, mapAlt_length fx fy true rest]
  | true, _ :: rest => by
      simp only [mapAlt, List.length_cons, mapAlt_length fx fy false rest]

theorem mapPairs_length (fx fy : ℚ → ℚ) : ∀ s : List ℚ,
    (mapPairs fx fy s).length = s.length
  | [] => rfl
  | [_] => rfl
  | _ :: _ :: rest => by
      simp only [mapPairs, List.length_cons, mapPairs_length fx fy rest]

theorem take3_extend (s m : List ℚ) (hm : m.length = (s.drop 3).length) :
    (s.take 3 ++ m).take 3 = s.take 3 := by
  rcases le_or_lt 3 s.length with h | h
  · exact List.take_left' (by simp only [List.length_take]; omega)
  · have hd : s.drop 3 = [] := List.drop_eq_nil_of_le (by omega)
    have hm0 : m = [] := List.eq_nil_of_length_eq_zero (by simp [hm, hd])
    subst hm0
    simp [List.take_take]

theorem transformRecord_length (fx fy : ℚ → ℚ) (s : List ℚ) :
    (transformRecord fx fy s).length = s.length := by
  simp only [transformRecord, List.length_append, List.length_take,
    mapAlt_length, List.length_drop]
  omega

theorem transformRecord_take3 (fx fy : ℚ → ℚ) (s : List ℚ) :
    (transformRecord fx fy s).take 3 = s.take 3 :=
  take3_extend s _ (mapAlt_length fx fy false (s.drop 3))

theorem transCurrentRecord_length (fx fy : ℚ → ℚ) (s : List ℚ) :
    (transCurrentRecord fx fy s).length = s.length := by
  simp only [transCurrentRecord, List.length_append, List.length_take,
    mapPairs_length, List.length_drop]
  omega

theorem transCurrentRecord_take3 (fx fy : ℚ → ℚ) (s : List ℚ) :
    (transCurrentRecord fx fy s).take 3 = s.take 3 :=
  take3_extend s _ (mapPairs_length fx fy (s.drop 3))

theorem forall₂_map_self {α : Type} {P : α → α → Prop} (f : α → α) :
    ∀ l : List α, (∀ a ∈ l, P (f a) a) → List.Forall₂ P (l.map f) l
  | [], _ => List.Forall₂.nil
  | a :: t, h =>
    List.Forall₂.cons (h a (List.mem_cons_self a t))
      (forall₂_map_self f t fun x hx => h x (List.mem_cons_of_mem a hx))

/-- On every non-TRIANGLE branch the recombined data is the transformed
current strokes followed by the transformed part strokes. -/
theorem compose_data_eq (sc sp : List (List ℚ)) (lm : Layout) (cs ca f : ℚ)
    (pr : Option Rect) (hl : lm ≠ .TRIANGLE) :
    (compose sc sp lm cs ca f pr).data =
      sc.map (fun s => transCurrentRecord
        (fun v => jfloor (v * ((layoutGeom lm cs).2.1.w / cs) + (layoutGeom lm cs).2.1.x))
        (fun v => jfloor (v * ((layoutGeom lm cs).2.1.h / cs) + (layoutGeom lm cs).2.1.y)) s)
      ++ transformStrokes sp (layoutGeom lm cs).2.2 (some (pr.getD ⟨0, 0, 1, 1⟩)) := by
  cases lm <;> first | exact absurd rfl hl | (cases pr <;> rfl)

/-! ## Claim theorems: composition engine -/

/-- C1: composing with layout ADD_RIGHT at current size 200, area 40000,
factor 1 and no part rect places the part whose flattened strokes are
`[[1,0,0,10,10,50,50]]` in the box (200,0,300,500) of a new 500-sized space:
the coordinate pair (10,10) lands on (215,25), the returned logical size is
500 and the returned area is 100000. -/
theorem compose_addRight_scenario (strokesCurrent : List (List ℚ)) :
    (compose strokesCurrent [[1,0,0,10,10,50,50]] .ADD_RIGHT 200 40000 1 none).logicalSize
        = 500 ∧
    (layoutGeom .ADD_RIGHT 200).2.2 = ⟨200, 0, 300, 500⟩ ∧
    (compose strokesCurrent [[1,0,0,10,10,50,50]] .ADD_RIGHT 200 40000 1 none).data.drop
        strokesCurrent.length = [[1, 0, 0, 215, 25, 275, 125]] ∧
    (compose strokesCurrent [[1,0,0,10,10,50,50]] .ADD_RIGHT 200 40000 1 none).area
        = 100000 := by
  refine ⟨?_, ?_, ?_, ?_⟩
  · simp only [compose, layoutGeom, jfloor_eq_floor]
    norm_num
  · norm_num [layoutGeom]
  · rw [compose_data_eq _ _ _ _ _ _ _ (by decide),
      List.drop_left' (List.length_map _ _)]
    simp only [transformStrokes, layoutGeom, transformRecord, mapAlt,
      jfloor_eq_floor, Option.getD, List.map]
    norm_num
  · simp only [compose, layoutGeom]
    norm_num

/-- C2: on every non-TRIANGLE layout the returned area is
`currentArea + (currentArea·(newSize/currentSize) − currentArea)·areaFactor`
(with `newSize` the layout's new logical size of Step 2); in particular it is
exactly `currentArea·(newSize/currentSize)` for factor 1 and exactly
`currentArea` for factor 0. -/
theorem compose_area_formula (strokesCurrent strokesPart : List (List ℚ))
    (layoutMode : Layout) (cs ca f : ℚ) (pr : Option Rect)
    (hl : layoutMode ≠ .TRIANGLE) :
    (compose strokesCurrent strokesPart layoutMode cs ca f pr).area =
      ca + (ca * ((layoutGeom layoutMode cs).1 / cs) - ca) * f ∧
    (f = 1 → (compose strokesCurrent strokesPart layoutMode cs ca f pr).area =
      ca * ((layoutGeom layoutMode cs).1 / cs)) ∧
    (f = 0 → (compose strokesCurrent strokesPart layoutMode cs ca f pr).area = ca) := by
  have harea : (compose strokesCurrent strokesPart layoutMode cs ca f pr).area =
      ca + (ca * ((layoutGeom layoutMode cs).1 / cs) - ca) * f := by
    cases layoutMode <;> first | exact absurd rfl hl | rfl
  refine ⟨harea, fun h1 => ?_, fun h0 => ?_⟩
  · rw [harea, h1]; ring
  · rw [harea, h0]; ring

theorem compose_area_formula_witness :
    Layout.ADD_RIGHT ≠ Layout.TRIANGLE ∧
    ((compose [] [] .ADD_RIGHT 200 40000 1 none).area =
        40000 + (40000 * ((layoutGeom .ADD_RIGHT 200).1 / 200) - 40000) * 1 ∧
      ((1 : ℚ) = 1 → (compose [] [] .ADD_RIGHT 200 40000 1 none).area =
        40000 * ((layoutGeom .ADD_RIGHT 200).1 / 200)) ∧
      ((1 : ℚ) = 0 → (compose [] [] .ADD_RIGHT 200 40000 1 none).area = 40000)) :=
  ⟨by decide, compose_area_formula [] [] .ADD_RIGHT 200 40000 1 none (by decide)⟩

/-- C3: the TRIANGLE layout discards the existing composite, returns exactly
the three transformed copies of the part's strokes (top, bottom-left,
bottom-right boxes of the doubled square), doubles the logical size, and fixes
the area at 3·40000·areaFactor independently of the current area — the
area-preservation rule is not applied; with current size 200 and factor 1 the
result is size 400 and area 120000. -/
theorem compose_triangle_spec (sc sp : List (List ℚ)) (cs ca f : ℚ)
    (pr : Option Rect) :
    compose sc sp .TRIANGLE cs ca f pr =
      { data := transformStrokes sp ⟨cs * 2 / 2 / 2, 0, cs * 2 / 2, cs * 2 / 2⟩
            (some (pr.getD ⟨0, 0, 1, 1⟩)) ++
          transformStrokes sp ⟨0, cs * 2 / 2, cs * 2 / 2, cs * 2 / 2⟩
            (some (pr.getD ⟨0, 0, 1, 1⟩)) ++
          transformStrokes sp ⟨cs * 2 / 2, cs * 2 / 2, cs * 2 / 2, cs * 2 / 2⟩
            (some (pr.getD ⟨0, 0, 1, 1⟩)),
        logicalSize := cs * 2,
        area := (40000 * 3) * f } ∧
    (compose sc sp .TRIANGLE 200 ca 1 pr).logicalSize = 400 ∧
    (compose sc sp .TRIANGLE 200 ca 1 pr).area = 120000 := by
  refine ⟨by cases pr <;> rfl, ?_, ?_⟩
  · show (200 : ℚ) * 2 = 400
    norm_num
  · show (40000 : ℚ) * 3 * 1 = 120000
    norm_num

/-! ## Claim theorems: editor state -/

/-- C6: after `reset d; update a; update b`, the first undo succeeds and makes
the state recorded just before `update b` (data `a`) current, the second undo
succeeds and restores the post-reset state (`d`, 200, 40000), and a third undo
on the empty history fails and changes nothing. -/
theorem undo_laws (es : EditorState) (d a b : String) (sa aa sb ab : ℚ) :
    (((es.reset d).update a sa aa).update b sb ab).undo.1 = true ∧
    (((es.reset d).update a sa aa).update b sb ab).undo.2.state = ⟨a, sa, aa⟩ ∧
    (((es.reset d).update a sa aa).update b sb ab).undo.2.undo.1 = true ∧
    (((es.reset d).update a sa aa).update b sb ab).undo.2.undo.2.state
      = ⟨d, 200, 40000⟩ ∧
    (((es.reset d).update a sa aa).update b sb ab).undo.2.undo.2.undo.1 = false ∧
    (((es.reset d).update a sa aa).update b sb ab).undo.2.undo.2.undo.2
      = (((es.reset d).update a sa aa).update b sb ab).undo.2.undo.2 := by
  simp [EditorState.reset, EditorState.update, EditorState.undo]

/-- C7: importing the export of the current state succeeds, restores the same
composite state and clears the history. -/
theorem export_import_roundtrip (es : EditorState) :
    importJson es (some (exportJson es)) = (true, ⟨[], es.state⟩) := rfl

/-- C8: `importJson` succeeds exactly on inputs that parse and carry a string
`data` field and numeric `logicalSize` and `area` fields; then it clears the
history and installs the extracted state, and on every other input it reports
failure and returns the editor (state and history) unchanged. -/
theorem importJson_validation (es : EditorState) (parsedInput : Option Json) :
    importJson es parsedInput =
      match validComposite parsedInput with
      | none => (false, es)
      | some c => (true, ⟨[], c⟩) := by
  rcases parsedInput with _ | parsed
  · rfl
  · simp only [importJson, validComposite]
    generalize parsed.getField "data" = o1
    generalize parsed.getField "logicalSize" = o2
    generalize parsed.getField "area" = o3
    rcases o1 with _ | j1
    · rfl
    cases j1 <;> try rfl
    rcases o2 with _ | j2
    · rfl
    cases j2 <;> try rfl
    rcases o3 with _ | j3
    · rfl
    cases j3 <;> rfl

/-! ## Claim theorems: loader -/

/-- C4 counterexample: when the service answers with an empty definition text,
the empty string is cached but is falsy, so a second load of the same
identifier issues a second fetch — the identifier is fetched twice within the
lifetime of the cache. -/
theorem load_refetch_counterexample :
    (load (fun _ => FetchResult.ok (some "")) 5 "ux" ⟨fun _ => none, 0⟩).2.fetchCount
      = 1 ∧
    (load (fun _ => FetchResult.ok (some "")) 5 "ux" ⟨fun _ => none, 0⟩).2.cache "ux"
      = some (CVal.str "") ∧
    (load (fun _ => FetchResult.ok (some "")) 5 "ux"
      ((load (fun _ => FetchResult.ok (some "")) 5 "ux"
        ⟨fun _ => none, 0⟩).2)).2.fetchCount = 2 := by
  refine ⟨?_, ?_, ?_⟩ <;> decide

/-- C4 (amended): the cache never loses a key; an entry holding a non-empty
definition text is never overwritten; and a load whose resolved identifier is
cached with a non-empty text returns that text at once, leaving the loader
state (cache and fetch count) untouched — no fetch happens on such a hit.
(The unamended claim fails for falsy cached values: see the counterexample.) -/
theorem load_cache_monotone (oracle : String → FetchResult) :
    (∀ (fuel : Nat) (nameOrId : String) (st : LoaderSt) (k : String),
      (st.cache k).isSome = true →
      (((load oracle fuel nameOrId st).2).cache k).isSome = true) ∧
    (∀ (fuel : Nat) (nameOrId : String) (st : LoaderSt) (k : String) (v : CVal),
      jsTruthy (st.cache k) = true → st.cache k = some v →
      ((load oracle fuel nameOrId st).2).cache k = some v) ∧
    (∀ (fuel : Nat) (nameOrId id : String) (st : LoaderSt) (s : String),
      resolveId nameOrId = some id → st.cache id = some (.str s) → s ≠ "" →
      load oracle (fuel + 1) nameOrId st = (some s, st)) := by
  refine ⟨fun fuel n st k hk => (load_cachePres oracle fuel n st).1 k hk,
    fun fuel n st k v ht hv => (load_cachePres oracle fuel n st).2 k v ht hv,
    fun fuel n id st s hres hc hs => ?_⟩
  rw [load]
  simp only [hres, hc]
  rw [if_neg hs]

theorem load_cache_monotone_witness :
    load (fun _ => FetchResult.fail) 1 "ua"
      ⟨fun q => if q = "ua" then some (CVal.str "X") else none, 0⟩ =
    (some "X", ⟨fun q => if q = "ua" then some (CVal.str "X") else none, 0⟩) :=
  (load_cache_monotone (fun _ => FetchResult.fail)).2.2 0 "ua" "ua"
    ⟨fun q => if q = "ua" then some (CVal.str "X") else none, 0⟩ "X"
    (by decide) (by decide) (by decide)

/-- C5 (code-bug exhibit): two `load("木")` calls, the second issued before
the first response arrives, both miss the cache and each issues its own fetch
of `u6728` — the loader has no in-flight de-duplication table — although both
callers do observe the same definition text. -/
theorem concurrent_load_double_fetch :
    ((loadTwiceConcurrently (fun _ => FetchResult.ok (some "1:0:0:10:10:20:20"))
        3 "木" ⟨fun _ => none, 0⟩).2).fetchCount = 2 ∧
    (loadTwiceConcurrently (fun _ => FetchResult.ok (some "1:0:0:10:10:20:20"))
        3 "木" ⟨fun _ => none, 0⟩).1.1 = some "1:0:0:10:10:20:20" ∧
    (loadTwiceConcurrently (fun _ => FetchResult.ok (some "1:0:0:10:10:20:20"))
        3 "木" ⟨fun _ => none, 0⟩).1.2 = some "1:0:0:10:10:20:20" ∧
    resolveId "木" = some "u6728" := by
  refine ⟨?_, ?_, ?_, ?_⟩ <;> decide

/-- C9 (code-bug exhibit): a fetch for the top-level identifier that answers
with a JSON payload carrying no definition text stores the nullish
placeholder before the validation throw; `load` then yields an absent result,
but the poisoned entry persists in the cache under that identifier. -/
theorem load_null_data_poisons_cache :
    (load (fun _ => FetchResult.ok none) 1 "u0001" ⟨fun _ => none, 0⟩).1 = none ∧
    ((load (fun _ => FetchResult.ok none) 1 "u0001" ⟨fun _ => none, 0⟩).2).cache "u0001"
      = some CVal.nullish ∧
    ((load (fun _ => FetchResult.ok none) 1 "u0001" ⟨fun _ => none, 0⟩).2).fetchCount
      = 1 := by
  refine ⟨?_, ?_, ?_⟩ <;> decide

/-- C10: on the generic (non-TRIANGLE) path, with every record carrying its
coordinates in complete (x,y) pairs from index 3 on, each output record keeps
the three leading fields and the length of its source record (only the
coordinate fields are rewritten), and the output is exactly the transformed
current records followed by the transformed part records — none added, none
dropped. -/
theorem compose_frame_preservation (sc sp : List (List ℚ)) (layoutMode : Layout)
    (cs ca f : ℚ) (pr : Option Rect) (hl : layoutMode ≠ .TRIANGLE)
    (_hsc : ∀ s ∈ sc, pairComplete s) (_hsp : ∀ s ∈ sp, pairComplete s) :
    List.Forall₂ (fun outRec srcRec => outRec.length = srcRec.length ∧
        outRec.take 3 = srcRec.take 3)
      (compose sc sp layoutMode cs ca f pr).data (sc ++ sp) := by
  rw [compose_data_eq sc sp layoutMode cs ca f pr hl]
  refine List.rel_append ?_ ?_
  · exact forall₂_map_self _ sc fun a _ =>
      ⟨transCurrentRecord_length _ _ a, transCurrentRecord_take3 _ _ a⟩
  · simp only [transformStrokes]
    exact forall₂_map_self _ sp fun a _ =>
      ⟨transformRecord_length _ _ a, transformRecord_take3 _ _ a⟩

theorem compose_frame_preservation_witness :
    Layout.ADD_LEFT ≠ Layout.TRIANGLE ∧
    (∀ s ∈ [[(2:ℚ),0,0,0,0,200,200]], pairComplete s) ∧
    (∀ s ∈ [[(1:ℚ),0,0,10,10,50,50]], pairComplete s) ∧
    List.Forall₂ (fun outRec srcRec => outRec.length = srcRec.length ∧
        outRec.take 3 = srcRec.take 3)
      (compose [[(2:ℚ),0,0,0,0,200,200]] [[(1:ℚ),0,0,10,10,50,50]]
        .ADD_LEFT 200 40000 1 none).data
      ([[(2:ℚ),0,0,0,0,200,200]] ++ [[(1:ℚ),0,0,10,10,50,50]]) :=
  ⟨by decide, by decide, by decide,
    compose_frame_preservation [[(2:ℚ),0,0,0,0,200,200]]
      [[(1:ℚ),0,0,10,10,50,50]] .ADD_LEFT 200 40000 1 none
      (by decide) (by decide) (by decide)⟩

end KanjiComposite
